import Mathlib

/-!
Shallow embedding of the numeric core of the electrophysiology analysis
scripts (`action_potential_analysis.py`, `pharmacological_modulation_analysis.py`,
`synaptic_input_output_analysis.py`).

Amplitudes, sampling rates, thresholds and timestamps are embedded as
rationals (`ℚ`); Python sequences become `List ℚ`.  Fallible operations
return `Except PyExc α`, where `PyExc` enumerates the exception classes the
scripts can raise or let propagate.  Calls into external libraries whose
numeric content matters to the claims (`numpy.diff`, `scipy.signal.sosfilt`,
`scipy.signal.detrend`, the local-maxima scan behind
`scipy.signal.find_peaks`) are translated faithfully from those libraries;
external calls whose outcome is opaque to the scripts (file loaders,
`scipy.optimize.curve_fit`) are abstracted by passing their outcome as an
argument, so that the scripts' own control flow around them is what the
embedding describes.
-/

set_option maxHeartbeats 1000000

/-- Python exception classes that occur in (or propagate through) the three
scripts.  `dataLoadingError` and `analysisError` are the two custom classes
defined in `pharmacological_modulation_analysis.py`; the rest are builtin or
library exceptions. -/
inductive PyExc where
  | valueError
  | typeError
  | runtimeError
  | fileNotFoundError
  | dataLoadingError
  | analysisError
  deriving DecidableEq, Repr

/-- Python class name of each exception, as `type(e).__name__` would report it. -/
def PyExc.className : PyExc → String
  | .valueError => "ValueError"
  | .typeError => "TypeError"
  | .runtimeError => "RuntimeError"
  | .fileNotFoundError => "FileNotFoundError"
  | .dataLoadingError => "DataLoadingError"
  | .analysisError => "AnalysisError"

/-- Model of `numpy.diff(x)`: the sequence `x[1:] - x[:-1]` of consecutive
differences (length `n - 1`). -/
def npdiff (xs : List ℚ) : List ℚ :=
  List.zipWith (fun a b => a - b) xs.tail xs

/-- Model of `scipy.signal.detrend(x, type='linear')`: least-squares fit of a
straight line over the design matrix `A = [arange(1, N+1)/N, ones(N)]` and
subtraction of the fitted line.  Over `ℚ` the normal equations are exact; the
degenerate one-sample case (where the denominator vanishes and `ℚ` division
yields 0) reproduces scipy's minimum-norm answer `[0]`. -/
def detrend (xs : List ℚ) : List ℚ :=
  let n : ℚ := (xs.length : ℚ)
  let ts : List ℚ := (List.range xs.length).map (fun i : Nat => ((i : ℚ) + 1) / n)
  let st := ts.sum
  let sy := xs.sum
  let stt := (ts.map (fun t => t * t)).sum
  let sty := (List.zipWith (fun t y => t * y) ts xs).sum
  let den := n * stt - st * st
  let slope := (n * sty - st * sy) / den
  let icept := (sy - slope * st) / n
  List.zipWith (fun t y => y - (slope * t + icept)) ts xs

/-- One second-order filter section, as one row of the scipy `sos` array with
the leading denominator coefficient normalized to `a0 = 1` (as
`scipy.signal.butter(..., output='sos')` produces). -/
structure Biquad where
  b0 : ℚ
  b1 : ℚ
  b2 : ℚ
  a1 : ℚ
  a2 : ℚ

/-- Model of one section of `scipy.signal.sosfilt`'s kernel: the direct form
II transposed update
`x_new = b0*x + z1; z1 := b1*x - a1*x_new + z2; z2 := b2*x - a2*x_new`,
applied along the signal with state `(z1, z2)`. -/
def biquadApply (c : Biquad) : ℚ × ℚ → List ℚ → List ℚ
  | _, [] => []
  | (z1, z2), xcur :: rest =>
    let xnew := c.b0 * xcur + z1
    xnew :: biquadApply c (c.b1 * xcur - c.a1 * xnew + z2, c.b2 * xcur - c.a2 * xnew) rest

/-- Model of `scipy.signal.sosfilt(sos, x)` with zero initial conditions: the
cascade of the second-order sections.  (scipy's kernel interleaves the
sections sample by sample; because each section carries its own state the
section-by-section order used here produces the same output sequence.) -/
def sosfilt (sos : List Biquad) (x : List ℚ) : List ℚ :=
  sos.foldl (fun acc c => biquadApply c (0, 0) acc) x

/-- Model of `scipy.signal.butter(4, [freq_min, freq_max], btype='bandpass',
fs=sampling_rate, output='sos')` — external library code.  scipy validates the
normalized critical frequencies `Wn = 2*f/fs`, raising
`ValueError("Digital filter critical frequencies must be 0 < Wn < fs/2")`
whenever a cutoff lies outside the open interval `(0, fs/2)`; it performs no
ordering check between the two cutoffs (a band with `freq_min ≥ freq_max`
yields a degenerate filter, not an exception).  A 4th-order bandpass design
returns four second-order sections with `a0 = 1`.  The genuine coefficient
values are transcendental functions of the prewarped cutoffs, which `ℚ`
cannot express; rational surrogates built from the normalized cutoffs stand
in for them, and no theorem in this file depends on the surrogate values
(length preservation is proved for every section list). -/
def butter_bandpass4 (sampling_rate freq_min freq_max : ℚ) : Except PyExc (List Biquad) :=
  if 0 < freq_min ∧ freq_min < sampling_rate / 2 ∧ 0 < freq_max ∧ freq_max < sampling_rate / 2 then
    let wlo := 2 * freq_min / sampling_rate
    let whi := 2 * freq_max / sampling_rate
    let bw := whi - wlo
    .ok [⟨bw / 2, 0, -(bw / 2), -(wlo + whi) / 2, wlo * whi⟩,
         ⟨bw / 2, 0, -(bw / 2), -(wlo + whi) / 2, wlo * whi⟩,
         ⟨1, 0, -1, -(wlo + whi) / 2, wlo * whi⟩,
         ⟨1, 0, -1, -(wlo + whi) / 2, wlo * whi⟩]
  else
    .error .valueError

/-- Inner `while` loop of `scipy.signal._peak_finding_utils._local_maxima_1d`:
starting at `iAhead`, advance past the plateau of samples equal to `v`
(`while i_ahead < i_max and x[i_ahead] == x[i]: i_ahead += 1`).  The `fuel`
argument bounds the number of iterations; the loop advances `iAhead` while
`iAhead < iMax`, so any fuel of at least `iMax - iAhead` (the callers pass
`iMax`) makes the zero-fuel case unreachable and the function agree with the
unbounded loop. -/
def scanPlateau (x : List ℚ) (iMax : Nat) (v : ℚ) : Nat → Nat → Nat
  | 0, iAhead => iAhead
  | fuel + 1, iAhead =>
    if iAhead < iMax ∧ x.getD iAhead 0 = v then
      scanPlateau x iMax v fuel (iAhead + 1)
    else iAhead

/-- Main loop of `_local_maxima_1d`, scanning `i` from 1 while `i < i_max`
(`i_max` is the last index, so the first and last sample are never peaks):
a sample strictly above its left neighbour starts a candidate; the plateau of
equal samples is skipped; if the sample after the plateau is strictly lower,
the midpoint `(left_edge + right_edge) // 2` of the plateau is recorded and
the scan resumes after the plateau.  `fuel` bounds the iteration count; each
step increases `i` by at least one while `i < iMax`, so any fuel of at least
`iMax - i` (the caller passes the signal length) makes the zero-fuel case
unreachable and the function agree with the unbounded loop. -/
def localMaximaFrom (x : List ℚ) (iMax : Nat) : Nat → Nat → List Nat
  | 0, _ => []
  | fuel + 1, i =>
    if i < iMax then
      if x.getD (i - 1) 0 < x.getD i 0 then
        let iAhead := scanPlateau x iMax (x.getD i 0) iMax (i + 1)
        if x.getD iAhead 0 < x.getD i 0 then
          (i + iAhead - 1) / 2 :: localMaximaFrom x iMax fuel (iAhead + 1)
        else
          localMaximaFrom x iMax fuel (i + 1)
      else
        localMaximaFrom x iMax fuel (i + 1)
    else []

/-- Model of `scipy.signal._peak_finding_utils._local_maxima_1d(x)`: indices
of the strict local maxima of `x`, flat maxima collapsing to the lower
midpoint of their plateau. -/
def localMaxima (x : List ℚ) : List Nat :=
  localMaximaFrom x (x.length - 1) x.length 1

/-- Model of `scipy.signal.find_peaks(x, height=h)[0]`: the local maxima of
`x` whose peak height satisfies the non-strict test `h <= x[peak]`
(scipy's `_select_by_property` keeps peaks with `pmin <= value`). -/
def find_peaks_idx (x : List ℚ) (height : ℚ) : List Nat :=
  (localMaxima x).filter (fun i => height ≤ x.getD i 0)

namespace ActionPotentialAnalysis

/-- Embedding of `bandpass_filter` (action_potential_analysis.py, lines
89-104): design the 4th-order Butterworth bandpass with `butter` and apply it
with `sosfilt`.  The function performs no validation of its own; a
`ValueError` raised by the external `butter` propagates unchanged. -/
def bandpass_filter (signal : List ℚ) (sampling_rate freq_min freq_max : ℚ) :
    Except PyExc (List ℚ) :=
  match butter_bandpass4 sampling_rate freq_min freq_max with
  | .ok sos => .ok (sosfilt sos signal)
  | .error e => .error e

/-- Embedding of `preprocess_signal` (action_potential_analysis.py, lines
70-87; `pharmacological_modulation_analysis.py` lines 90-109 inline the same
computation): optional linear detrend, then the bandpass filter. -/
def preprocess_signal (signal : List ℚ) (sampling_rate : ℚ) (detrend_signal : Bool)
    (freq_min freq_max : ℚ) : Except PyExc (List ℚ) :=
  let sig := if detrend_signal then detrend signal else signal
  bandpass_filter sig sampling_rate freq_min freq_max

/-- Embedding of `detect_action_potentials` (action_potential_analysis.py,
lines 107-121): `find_peaks(-signal, height=abs(threshold))[0]`, each index
divided by the sampling rate to give a timestamp in seconds. -/
def detect_action_potentials (signal : List ℚ) (sampling_rate threshold : ℚ) : List ℚ :=
  let spike_indices := find_peaks_idx (signal.map (fun w => -w)) |threshold|
  spike_indices.map (fun i : Nat => (i : ℚ) / sampling_rate)

/-- Embedding of `compute_isi` (action_potential_analysis.py, lines 124-135):
`elephant.statistics.isi` is `numpy.diff` on the timestamp array (for
unsorted input it merely warns, and for fewer than two timestamps it returns
an empty array — it never raises), and `.rescale('ms')` multiplies the
second-valued intervals by 1000. -/
def compute_isi (spike_times : List ℚ) : List ℚ :=
  (npdiff spike_times).map (fun d => d * 1000)

/-- Embedding of `load_data` (action_potential_analysis.py, lines 14-49): a
dispatch table keyed by `file_type` selects `load_abf_data` or
`load_neo_data`; the selected loader is called with no exception handling, so
whatever it raises propagates to the caller, and an unsupported file type
raises `ValueError`.  The external loader call (pyabf / neo file input) is
abstracted by its outcome, passed as an argument. -/
def load_data (file_type : String) (loader_outcome : Except PyExc (List ℚ × ℚ)) :
    Except PyExc (List ℚ × ℚ) :=
  if file_type = "abf" ∨ file_type = "neo" then loader_outcome
  else .error .valueError

end ActionPotentialAnalysis

namespace PharmacologicalModulation

/-- Embedding of `validate_data` (pharmacological_modulation_analysis.py,
lines 68-87): raises `ValueError` when the sampling rate is not positive.
(The companion check that the signal is a one-dimensional `numpy` array is a
shape/type property outside this value-level model, where one-dimensionality
holds by construction.) -/
def validate_data (sampling_rate : ℚ) : Except PyExc Unit :=
  if sampling_rate ≤ 0 then .error .valueError else .ok ()

/-- Embedding of `load_data` (pharmacological_modulation_analysis.py, lines
26-66): for the supported file types the external loader call is wrapped in
`try/except Exception`, re-raising `DataLoadingError`; an unsupported file
type also raises `DataLoadingError`; on success `validate_data` runs (its
`ValueError` propagates unwrapped).  The external loader call is abstracted
by its outcome, passed as an argument. -/
def load_data (file_type : String) (loader_outcome : Except PyExc (List ℚ × ℚ)) :
    Except PyExc (List ℚ × ℚ) :=
  if file_type = "abf" ∨ file_type = "neo" then
    match loader_outcome with
    | .ok (signal, sampling_rate) =>
      match validate_data sampling_rate with
      | .ok _ => .ok (signal, sampling_rate)
      | .error e => .error e
    | .error _ => .error .dataLoadingError
  else .error .dataLoadingError

/-- Embedding of `fit_dose_response` (pharmacological_modulation_analysis.py,
lines 141-163).  The single call to the external `scipy.optimize.curve_fit`
is abstracted by its outcome: `.ok (popt, pcov)` on convergence,
`.error .runtimeError` when the least-squares optimizer fails to converge
(scipy raises other exception classes for other failure modes, e.g.
`TypeError` when there are fewer data points than parameters).  The body
calls `curve_fit` exactly once — there is no retry — and its except-clause
catches `RuntimeError` only, re-raising `AnalysisError`; any other exception
propagates unchanged. -/
def fit_dose_response (curve_fit_outcome : Except PyExc (List ℚ × List (List ℚ))) :
    Except PyExc (List ℚ × List (List ℚ)) :=
  match curve_fit_outcome with
  | .ok r => .ok r
  | .error .runtimeError => .error .analysisError
  | .error e => .error e

end PharmacologicalModulation

namespace SynapticInputOutput

/-- Embedding of `analyze_synaptic_io` (synaptic_input_output_analysis.py,
lines 24-44): a single unguarded `curve_fit` call; every optimizer exception
propagates to the caller unchanged and no retry is performed.  The external
call is abstracted by its outcome, passed as an argument. -/
def analyze_synaptic_io (curve_fit_outcome : Except PyExc (List ℚ × List (List ℚ))) :
    Except PyExc (List ℚ × List (List ℚ)) :=
  curve_fit_outcome

end SynapticInputOutput

/-- Detection as claim C3 words it, with a strict height test: the
local-maximum peak indices of the sign-inverted signal whose height strictly
exceeds the absolute value of the threshold, each divided by the sampling
rate.  (The source embedding `detect_action_potentials` uses scipy's
non-strict test instead.) -/
def detect_spec_strict (signal : List ℚ) (sampling_rate threshold : ℚ) : List ℚ :=
  (((localMaxima (signal.map (fun w => -w))).filter
      (fun i => |threshold| < (signal.map (fun w => -w)).getD i 0)).map
    (fun i : Nat => (i : ℚ) / sampling_rate))

/-! Helper lemmas about the library models. -/

theorem biquadApply_length (c : Biquad) (st : ℚ × ℚ) (xs : List ℚ) :
    (biquadApply c st xs).length = xs.length := by
  induction xs generalizing st with
  | nil => rfl
  | cons x rest ih =>
    obtain ⟨z1, z2⟩ := st
    simp only [biquadApply, List.length_cons, ih]

theorem sosfilt_length (sos : List Biquad) (x : List ℚ) :
    (sosfilt sos x).length = x.length := by
  induction sos generalizing x with
  | nil => rfl
  | cons c rest ih =>
    show (sosfilt rest (biquadApply c (0, 0) x)).length = x.length
    rw [ih, biquadApply_length]

theorem detrend_length (xs : List ℚ) : (detrend xs).length = xs.length := by
  simp only [detrend]
  rw [List.length_zipWith, List.length_map, List.length_range]
  exact Nat.min_self _

theorem npdiff_length (xs : List ℚ) : (npdiff xs).length = xs.length - 1 := by
  simp [npdiff]

theorem npdiff_cons_cons (x y : ℚ) (rest : List ℚ) :
    npdiff (x :: y :: rest) = (y - x) :: npdiff (y :: rest) := rfl

theorem npdiff_nonneg : ∀ (ts : List ℚ), List.Chain' (· ≤ ·) ts → ∀ d ∈ npdiff ts, 0 ≤ d
  | [], _, d, hd => by simp [npdiff] at hd
  | [_], _, d, hd => by simp [npdiff] at hd
  | x :: y :: rest, h, d, hd => by
    rw [npdiff_cons_cons] at hd
    rw [List.chain'_cons] at h
    rcases List.mem_cons.1 hd with hd | hd
    · simpa [hd] using h.1
    · exact npdiff_nonneg (y :: rest) h.2 d hd

theorem le_scanPlateau (x : List ℚ) (iMax : Nat) (v : ℚ) :
    ∀ fuel iAhead, iAhead ≤ scanPlateau x iMax v fuel iAhead := by
  intro fuel
  induction fuel with
  | zero => intro i; simp [scanPlateau]
  | succ n ih =>
    intro i
    rw [scanPlateau]
    split
    · exact (Nat.le_succ i).trans (ih (i + 1))
    · exact Nat.le_refl i

theorem localMaximaFrom_ge (x : List ℚ) (iMax : Nat) :
    ∀ fuel i m, m ∈ localMaximaFrom x iMax fuel i → i ≤ m := by
  intro fuel
  induction fuel with
  | zero => intro i m hm; simp [localMaximaFrom] at hm
  | succ n ih =>
    intro i m hm
    simp only [localMaximaFrom] at hm
    split at hm
    · split at hm
      · split at hm
        · have hsc := le_scanPlateau x iMax (x.getD i 0) iMax (i + 1)
          rcases List.mem_cons.1 hm with hm | hm
          · omega
          · have := ih _ _ hm
            omega
        · have := ih _ _ hm
          omega
      · have := ih _ _ hm
        omega
    · simp at hm

theorem localMaximaFrom_pairwise (x : List ℚ) (iMax : Nat) :
    ∀ fuel i, List.Pairwise (· < ·) (localMaximaFrom x iMax fuel i) := by
  intro fuel
  induction fuel with
  | zero => intro i; simp [localMaximaFrom]
  | succ n ih =>
    intro i
    simp only [localMaximaFrom]
    split
    · split
      · split
        · refine List.pairwise_cons.2 ⟨fun m hm => ?_, ih _⟩
          have hsc := le_scanPlateau x iMax (x.getD i 0) iMax (i + 1)
          have := localMaximaFrom_ge x iMax _ _ _ hm
          omega
        · exact ih _
      · exact ih _
    · exact List.Pairwise.nil

theorem localMaxima_pairwise (x : List ℚ) : List.Pairwise (· < ·) (localMaxima x) :=
  localMaximaFrom_pairwise x _ _ _

theorem find_peaks_idx_pairwise (x : List ℚ) (h : ℚ) :
    List.Pairwise (· < ·) (find_peaks_idx x h) :=
  List.Pairwise.sublist (List.filter_sublist _) (localMaxima_pairwise x)

/-! Claim theorems. -/

theorem bandpass_filter_valid (signal : List ℚ) (sampling_rate freq_min freq_max : ℚ)
    (h : 0 < freq_min ∧ freq_min < sampling_rate / 2 ∧ 0 < freq_max ∧ freq_max < sampling_rate / 2) :
    ∃ ys, ActionPotentialAnalysis.bandpass_filter signal sampling_rate freq_min freq_max =
      Except.ok ys ∧ ys.length = signal.length := by
  unfold ActionPotentialAnalysis.bandpass_filter butter_bandpass4
  rw [if_pos h]
  exact ⟨_, rfl, sosfilt_length _ _⟩

/-- C1: for cutoffs satisfying 0 < freq_min < freq_max < sampling_rate/2, the bandpass
filtering operation (the classic script's `bandpass_filter`, and `preprocess_signal`
which runs it after the optional detrend) returns an output sequence of the same
length as the input sequence. -/
theorem c1_filter_preserves_length (signal : List ℚ) (sampling_rate freq_min freq_max : ℚ)
    (detrend_signal : Bool) (h1 : 0 < freq_min) (h2 : freq_min < freq_max)
    (h3 : freq_max < sampling_rate / 2) :
    (∃ ys, ActionPotentialAnalysis.bandpass_filter signal sampling_rate freq_min freq_max =
        Except.ok ys ∧ ys.length = signal.length) ∧
    (∃ zs, ActionPotentialAnalysis.preprocess_signal signal sampling_rate detrend_signal
        freq_min freq_max = Except.ok zs ∧ zs.length = signal.length) := by
  have h : 0 < freq_min ∧ freq_min < sampling_rate / 2 ∧ 0 < freq_max ∧
      freq_max < sampling_rate / 2 := ⟨h1, h2.trans h3, h1.trans h2, h3⟩
  refine ⟨bandpass_filter_valid signal sampling_rate freq_min freq_max h, ?_⟩
  unfold ActionPotentialAnalysis.preprocess_signal
  obtain ⟨ys, hok, hlen⟩ :=
    bandpass_filter_valid (if detrend_signal then detrend signal else signal)
      sampling_rate freq_min freq_max h
  refine ⟨ys, hok, hlen.trans ?_⟩
  cases detrend_signal with
  | false => rfl
  | true => simp [detrend_length]

/-- C1 witness: the theorem applied at signal [1, 2, 3], sampling rate 1000 Hz,
cutoffs 1 Hz and 100 Hz. -/
theorem c1_filter_preserves_length_witness :
    (0 : ℚ) < 1 ∧ (1 : ℚ) < 100 ∧ (100 : ℚ) < 1000 / 2 ∧
    ((∃ ys, ActionPotentialAnalysis.bandpass_filter [1, 2, 3] 1000 1 100 =
        Except.ok ys ∧ ys.length = ([1, 2, 3] : List ℚ).length) ∧
     (∃ zs, ActionPotentialAnalysis.preprocess_signal [1, 2, 3] 1000 true 1 100 =
        Except.ok zs ∧ zs.length = ([1, 2, 3] : List ℚ).length)) :=
  ⟨by norm_num, by norm_num, by norm_num,
    c1_filter_preserves_length [1, 2, 3] 1000 1 100 true (by norm_num) (by norm_num) (by norm_num)⟩

/-- C2: the claim says violating 0 < freq_min < freq_max < sampling_rate/2 must raise
InvalidParameterError.  The code performs no such validation and defines no such
exception class: at signal [1, 2, 3], sampling rate 1000 and the violating cutoffs
freq_min = freq_max = 10 both filtering entry points return a result normally. -/
theorem c2_equal_cutoffs_return_ok :
    (ActionPotentialAnalysis.bandpass_filter [1, 2, 3] 1000 10 10).isOk = true ∧
    (ActionPotentialAnalysis.preprocess_signal [1, 2, 3] 1000 true 10 10).isOk = true := by
  constructor
  · norm_num [ActionPotentialAnalysis.bandpass_filter, butter_bandpass4, Except.isOk,
      Except.toBool]
  · norm_num [ActionPotentialAnalysis.preprocess_signal, ActionPotentialAnalysis.bandpass_filter,
      butter_bandpass4, Except.isOk, Except.toBool]

/-- C3 counterexample: at signal [0, -5, 0], sampling rate 1, threshold -5 the code
reports the peak whose height equals |threshold| exactly (scipy's height test is the
non-strict `height <= x[peak]`), while the claim's strict "exceeds" reading reports
nothing: the two disagree at this input. -/
theorem c3_strict_exceeds_counterexample :
    ActionPotentialAnalysis.detect_action_potentials [0, -5, 0] 1 (-5) = [1] ∧
    detect_spec_strict [0, -5, 0] 1 (-5) = [] ∧ ([1] : List ℚ) ≠ [] := by
  refine ⟨?_, ?_, by simp⟩
  · norm_num [ActionPotentialAnalysis.detect_action_potentials, find_peaks_idx, localMaxima,
      localMaximaFrom, scanPlateau]
  · norm_num [detect_spec_strict, localMaxima, localMaximaFrom, scanPlateau]

/-- C3 amended: spike detection returns exactly the timestamps obtained by finding the
local-maximum peak indices of the sign-inverted signal whose height is at least (non-strict)
the absolute value of the threshold, each index divided by the sampling rate. -/
theorem c3_detect_is_nonstrict_peak_selection (signal : List ℚ) (sampling_rate threshold : ℚ) :
    ActionPotentialAnalysis.detect_action_potentials signal sampling_rate threshold =
      ((localMaxima (signal.map (fun w => -w))).filter
          (fun i => |threshold| ≤ (signal.map (fun w => -w)).getD i 0)).map
        (fun i : Nat => (i : ℚ) / sampling_rate) := rfl

/-- C4 counterexample: at signal [0, -5, -5, -5, 0] (a flat extremum of three equal
samples at indices 1, 2, 3), sampling rate 1 and threshold -5, detection reports
index 2 — the midpoint of the plateau — not the first (lowest-index) sample 1 that
the claim predicts. -/
theorem c4_plateau_of_three_counterexample :
    ActionPotentialAnalysis.detect_action_potentials [0, -5, -5, -5, 0] 1 (-5) = [2] ∧
    ([2] : List ℚ) ≠ [1] := by
  refine ⟨?_, by norm_num⟩
  norm_num [ActionPotentialAnalysis.detect_action_potentials, find_peaks_idx, localMaxima,
    localMaximaFrom, scanPlateau]

/-- C4 amended: detection reports the rounded-down midpoint of a plateau of equal
extremal samples; in particular, for a flat local maximum of exactly two adjacent equal
samples the first of the two (the lowest index of the plateau) is reported.  Stated for
the two-sample plateau over arbitrary surrounding amplitudes a, b, plateau value v and
threshold of magnitude at most v. -/
theorem c4_plateau_of_two_reports_first (a v b sampling_rate threshold : ℚ)
    (ha : a < v) (hb : b < v) (ht : |threshold| ≤ v) :
    ActionPotentialAnalysis.detect_action_potentials [-a, -v, -v, -b] sampling_rate threshold =
      [1 / sampling_rate] := by
  have hmap : (List.map (fun w => -w) [-a, -v, -v, -b]) = [a, v, v, b] := by
    simp
  simp only [ActionPotentialAnalysis.detect_action_potentials, find_peaks_idx, localMaxima, hmap]
  have hscan : scanPlateau [a, v, v, b] 3 v 3 2 = 3 := by
    rw [scanPlateau, if_pos ⟨by norm_num, rfl⟩, scanPlateau, if_neg (by norm_num)]
  simp only [List.length_cons, List.length_nil]
  norm_num [localMaximaFrom, scanPlateau, ha, hb, ht]

/-- C4 witness: the amended theorem applied at a = 1, v = 5, b = 2, sampling rate 1,
threshold -5. -/
theorem c4_plateau_of_two_reports_first_witness :
    (1 : ℚ) < 5 ∧ (2 : ℚ) < 5 ∧ |(-5 : ℚ)| ≤ 5 ∧
    ActionPotentialAnalysis.detect_action_potentials [-1, -5, -5, -2] 1 (-5) = [1 / 1] :=
  ⟨by norm_num, by norm_num, by norm_num,
    c4_plateau_of_two_reports_first 1 5 2 1 (-5) (by norm_num) (by norm_num) (by norm_num)⟩

/-- C5: for an ascending timestamp sequence of length n >= 2, the interspike-interval
computation returns exactly n - 1 values, each non-negative. -/
theorem c5_isi_count_and_nonneg (spike_times : List ℚ)
    (hsort : List.Chain' (· ≤ ·) spike_times) (_hlen : 2 ≤ spike_times.length) :
    (ActionPotentialAnalysis.compute_isi spike_times).length = spike_times.length - 1 ∧
    ∀ d ∈ ActionPotentialAnalysis.compute_isi spike_times, 0 ≤ d := by
  constructor
  · simp [ActionPotentialAnalysis.compute_isi, npdiff_length]
  · intro d hd
    simp only [ActionPotentialAnalysis.compute_isi, List.mem_map] at hd
    obtain ⟨e, he, rfl⟩ := hd
    have h0 := npdiff_nonneg spike_times hsort e he
    have : (0 : ℚ) ≤ 1000 := by norm_num
    exact mul_nonneg h0 this

/-- C5 witness: the theorem applied at the ascending timestamps [0, 1/2, 2]. -/
theorem c5_isi_count_and_nonneg_witness :
    List.Chain' (· ≤ ·) ([0, 1/2, 2] : List ℚ) ∧ 2 ≤ ([0, 1/2, 2] : List ℚ).length ∧
    ((ActionPotentialAnalysis.compute_isi [0, 1/2, 2]).length = ([0, 1/2, 2] : List ℚ).length - 1 ∧
     ∀ d ∈ ActionPotentialAnalysis.compute_isi [0, 1/2, 2], 0 ≤ d) :=
  ⟨by norm_num [List.chain'_cons, List.chain'_singleton], by norm_num,
    c5_isi_count_and_nonneg [0, 1/2, 2]
      (by norm_num [List.chain'_cons, List.chain'_singleton]) (by norm_num)⟩

/-- C6: the claim says fewer than 2 timestamps must raise EmptyInputError.  No such
class exists in the repository and `elephant`'s isi (numpy.diff) never raises for short
input: at the failing inputs [5.0] and [] the interval computation returns an empty
sequence normally instead of failing. -/
theorem c6_short_input_returns_empty :
    ActionPotentialAnalysis.compute_isi [5] = [] ∧
    ActionPotentialAnalysis.compute_isi [] = [] :=
  ⟨rfl, rfl⟩

/-- C7 counterexample: when the optimizer fails to converge (RuntimeError outcome),
`fit_dose_response` raises the repository's AnalysisError — whose class name is not
"CurveFitError" — and `analyze_synaptic_io` lets the RuntimeError itself propagate;
no CurveFitError class exists anywhere in the repository. -/
theorem c7_no_curve_fit_error_counterexample :
    PharmacologicalModulation.fit_dose_response (.error .runtimeError) =
      .error .analysisError ∧
    PyExc.className .analysisError ≠ "CurveFitError" ∧
    SynapticInputOutput.analyze_synaptic_io (.error .runtimeError) = .error .runtimeError ∧
    PyExc.className .runtimeError ≠ "CurveFitError" :=
  ⟨rfl, by decide, rfl, by decide⟩

/-- C7 amended: on an optimizer convergence failure `fit_dose_response` raises
AnalysisError (not CurveFitError, which does not exist in the repository) and
`analyze_synaptic_io` lets the optimizer's exception propagate unchanged; neither
performs any retry (each embeds a single optimizer outcome with no second attempt). -/
theorem c7_fit_failure_behavior :
    (∀ r, PharmacologicalModulation.fit_dose_response (.ok r) = .ok r) ∧
    PharmacologicalModulation.fit_dose_response (.error .runtimeError) =
      .error .analysisError ∧
    (∀ e, SynapticInputOutput.analyze_synaptic_io (.error e) = .error e) :=
  ⟨fun _ => rfl, rfl, fun _ => rfl⟩

/-- C8 counterexample: the classic script's `load_data` calls the selected loader with
no exception handling, so for a nonexistent path the loader's FileNotFoundError — a
low-level exception whose class name is not "DataLoadingError" — escapes to the
caller unchanged. -/
theorem c8_classic_load_propagates_counterexample :
    ActionPotentialAnalysis.load_data "abf" (.error .fileNotFoundError) =
      .error .fileNotFoundError ∧
    PyExc.className .fileNotFoundError ≠ "DataLoadingError" :=
  ⟨by simp [ActionPotentialAnalysis.load_data], by decide⟩

/-- C8 amended: only the mea script's `load_data` wraps loader failures: every loader
exception (for either supported file type) is re-raised as DataLoadingError, and an
unsupported file type raises DataLoadingError as well; the classic script's `load_data`
instead propagates the loader's exception unchanged. -/
theorem c8_pharma_load_wraps (e : PyExc) (outcome : Except PyExc (List ℚ × ℚ)) :
    PharmacologicalModulation.load_data "abf" (.error e) = .error .dataLoadingError ∧
    PharmacologicalModulation.load_data "neo" (.error e) = .error .dataLoadingError ∧
    PharmacologicalModulation.load_data "csv" outcome = .error .dataLoadingError ∧
    ActionPotentialAnalysis.load_data "abf" (.error e) = .error e := by
  refine ⟨?_, ?_, ?_, ?_⟩ <;>
    simp [PharmacologicalModulation.load_data, ActionPotentialAnalysis.load_data]

/-- C9: for every signal and positive sampling rate (and any threshold), the event set
produced by spike detection is a monotonically increasing sequence of timestamps: each
timestamp is strictly greater than its predecessor. -/
theorem c9_spike_times_strictly_increasing (signal : List ℚ) (sampling_rate threshold : ℚ)
    (hr : 0 < sampling_rate) :
    List.Chain' (· < ·)
      (ActionPotentialAnalysis.detect_action_potentials signal sampling_rate threshold) := by
  have hp := find_peaks_idx_pairwise (signal.map (fun w => -w)) |threshold|
  refine List.Pairwise.chain' ?_
  simp only [ActionPotentialAnalysis.detect_action_potentials]
  refine (List.pairwise_map).2 (hp.imp ?_)
  intro a b hab
  exact (div_lt_div_iff_of_pos_right hr).2 (by exact_mod_cast hab)

/-- C9 witness: the theorem applied at signal [0, -5, 0, -6, 0], sampling rate 2 Hz,
threshold -4. -/
theorem c9_spike_times_strictly_increasing_witness :
    (0 : ℚ) < 2 ∧ List.Chain' (· < ·)
      (ActionPotentialAnalysis.detect_action_potentials [0, -5, 0, -6, 0] 2 (-4)) :=
  ⟨by norm_num, c9_spike_times_strictly_increasing [0, -5, 0, -6, 0] 2 (-4) (by norm_num)⟩

/-- C10: spike detection is invariant under negating the sign of the threshold
argument, since only its absolute value is used as the peak height. -/
theorem c10_threshold_sign_invariance (signal : List ℚ) (sampling_rate threshold : ℚ) :
    ActionPotentialAnalysis.detect_action_potentials signal sampling_rate threshold =
    ActionPotentialAnalysis.detect_action_potentials signal sampling_rate (-threshold) := by
  simp [ActionPotentialAnalysis.detect_action_potentials, abs_neg]
